import Mathlib

/-!
Verification of the pastebin-lite lifecycle logic (src/index.js).

The paste record, the key-value store, the shared creation logic
(`createPaste`), the API access route (`GET /api/pastes/:id`) and the
HTML access route (`GET /p/:id`) are embedded shallowly: JS numbers
appearing in validated inputs are modelled as rationals (`ℚ`, capturing
non-integer inputs), timestamps and counters as integers, `null`/absent
fields as `Option`, and the `@vercel/kv` store as an association list of
string keys to records.
-/

set_option autoImplicit false

namespace PastebinLite

/-- A stored paste record, mirroring the object persisted by
`kv.set` in `createPaste`: `{content, createdAt, ttl_seconds, max_views, views}`,
with `null` rendered as `none`. -/
structure PasteRecord where
  content : String
  createdAt : Int
  ttl_seconds : Option Int
  max_views : Option Int
  views : Int
  deriving DecidableEq, Repr

/-- The key-value store (`@vercel/kv`), modelled as an association list. -/
def Store := List (String × PasteRecord)
  deriving DecidableEq

/-- Models `kv.get key`: first binding of `key`, if any. -/
def kvGet : Store → String → Option PasteRecord
  | [], _ => none
  | (k, v) :: rest, key => if k = key then some v else kvGet rest key

/-- Models `kv.set key v`: unconditional upsert (replace the binding if present,
append otherwise). -/
def kvSet : Store → String → PasteRecord → Store
  | [], key, v => [(key, v)]
  | (k, w) :: rest, key, v =>
      if k = key then (key, v) :: rest else (k, w) :: kvSet rest key v

/-- Models `kv.del key`: idempotent removal of every binding of `key`. -/
def kvDel : Store → String → Store
  | [], _ => []
  | (k, w) :: rest, key =>
      if k = key then kvDel rest key else (k, w) :: kvDel rest key

/-- The store key used by every route: `` `paste:${id}` ``. -/
def pasteKey (id : String) : String := "paste:" ++ id

/-! ## Creation (`createPaste`, src/index.js lines 65–95) -/

/-- The three validation failures thrown by `createPaste`. -/
inductive CreateError where
  | invalidContent
  | invalidTTL
  | invalidMaxViews
  deriving DecidableEq, Repr

/-- Models `Number.isInteger q` for a JS number modelled as a rational. -/
def jsIsInteger (q : ℚ) : Bool := q.den = 1

/-- The integer value of a JS number that passed `Number.isInteger`. -/
def ratToInt (q : ℚ) : Int := q.num

/-- JS `String.prototype.trim`: strip leading and trailing whitespace. -/
def jsTrim (s : String) : String :=
  String.mk (((s.data.dropWhile Char.isWhitespace).reverse.dropWhile
    Char.isWhitespace).reverse)

/-- The content check `!content || typeof content !== "string" || !content.trim()`:
a missing or non-string value is `none`; the empty string is falsy, and so is an
all-whitespace string after `trim`. -/
def contentInvalid : Option String → Bool
  | none => true
  | some c => c = "" || jsTrim c = ""

/-- The check applied to each of `ttl_seconds` and `max_views`:
`v !== undefined && (!Number.isInteger(v) || v < 1)`. -/
def posIntInvalid : Option ℚ → Bool
  | none => false
  | some q => !jsIsInteger q || q < 1

/-- Models `createPaste` (src/index.js lines 65–95): validate content, then
`ttl_seconds`, then `max_views`, throwing the first applicable error; on
success build the record `{content, createdAt: now, ttl_seconds ?? null,
max_views ?? null, views: 0}`. -/
def createPaste (content : Option String) (ttl_seconds max_views : Option ℚ)
    (clockNow : Int) : Except CreateError PasteRecord :=
  if contentInvalid content then .error .invalidContent
  else if posIntInvalid ttl_seconds then .error .invalidTTL
  else if posIntInvalid max_views then .error .invalidMaxViews
  else .ok
    { content := content.getD ""
      createdAt := clockNow
      ttl_seconds := ttl_seconds.map ratToInt
      max_views := max_views.map ratToInt
      views := 0 }

/-- The creation endpoint as a store transition: on validation failure the
exception propagates and the store is untouched (the only `kv.set` in
`createPaste` happens after all validation); on success the record is
persisted under `` `paste:${id}` `` (`id` stands for the generated `nanoid(8)`,
taken here as a parameter). -/
def createOp (s : Store) (id : String) (content : Option String)
    (ttl_seconds max_views : Option ℚ) (clockNow : Int) :
    Except CreateError String × Store :=
  match createPaste content ttl_seconds max_views clockNow with
  | .error e => (.error e, s)
  | .ok r => (.ok id, kvSet s (pasteKey id) r)

/-! ## Access (`GET /api/pastes/:id`, lines 148–186, and `GET /p/:id`, lines 191–231) -/

/-- The TTL check of both access routes:
`paste.ttl_seconds !== null && currentTime >= paste.createdAt + paste.ttl_seconds * 1000`. -/
def expiredAt (paste : PasteRecord) (currentTime : Int) : Bool :=
  match paste.ttl_seconds with
  | none => false
  | some T => currentTime ≥ paste.createdAt + T * 1000

/-- The view-limit check of both access routes:
`paste.max_views !== null && paste.views >= paste.max_views`. -/
def viewLimitReached (paste : PasteRecord) : Bool :=
  match paste.max_views with
  | none => false
  | some m => paste.views ≥ m

/-- A response of the JSON API route: an error response
`res.status(st).json({error: msg})` or the success payload
`{content, remaining_views, expires_at}` (the `expires_at` timestamp is kept
in milliseconds; the route renders it with `Date.toISOString`). -/
inductive ApiResp where
  | err (status : Nat) (msg : String)
  | ok (status : Nat) (content : String) (remaining_views : Option Int)
      (expires_at : Option Int)
  deriving DecidableEq, Repr

/-- Models `GET /api/pastes/:id` (src/index.js lines 148–186) as a function from the
store, the path id and the injected clock to the response and the next store. -/
def apiAccess (s : Store) (id : String) (currentTime : Int) : ApiResp × Store :=
  match kvGet s (pasteKey id) with
  | none => (.err 404 "Not found", s)
  | some paste =>
    if expiredAt paste currentTime then
      (.err 404 "Expired", kvDel s (pasteKey id))
    else if viewLimitReached paste then
      (.err 404 "View limit exceeded", s)
    else
      let paste' := { paste with views := paste.views + 1 }
      (.ok 200 paste'.content
        (paste'.max_views.map fun m => max 0 (m - paste'.views))
        (paste'.ttl_seconds.map fun T => paste'.createdAt + T * 1000),
       kvSet s (pasteKey id) paste')

/-- The HTML shown by `GET /p/:id` on success, with `<` escaped by
`paste.content.replace(/</g, "&lt;")`. -/
def renderPasteHtml (content : String) : String :=
  "<!DOCTYPE html><html><head><meta charset=\"utf-8\" /><title>View Paste</title><link rel=\"stylesheet\" href=\"/styles.css\" /></head><body><div class=\"container\"><pre>"
    ++ content.replace "<" "&lt;"
    ++ "</pre></div></body></html>"

/-- A response of the HTML route: `res.status(st).send(body)` on failure,
or the rendered page (status 200) on success. -/
inductive HtmlResp where
  | err (status : Nat) (body : String)
  | page (status : Nat) (html : String)
  deriving DecidableEq, Repr

/-- Models `GET /p/:id` (src/index.js lines 191–231): identical store logic to the
API route, differing only in how the result is rendered. -/
def htmlAccess (s : Store) (id : String) (currentTime : Int) : HtmlResp × Store :=
  match kvGet s (pasteKey id) with
  | none => (.err 404 "Not found", s)
  | some paste =>
    if expiredAt paste currentTime then
      (.err 404 "Expired", kvDel s (pasteKey id))
    else if viewLimitReached paste then
      (.err 404 "View limit exceeded", s)
    else
      let paste' := { paste with views := paste.views + 1 }
      (.page 200 (renderPasteHtml paste'.content),
       kvSet s (pasteKey id) paste')

/-- Whether an API response is the collapsed `NotFound` outcome. -/
def ApiResp.isNotFound : ApiResp → Bool
  | .err _ _ => true
  | .ok _ _ _ _ => false

/-- Whether an API response is a successful consumption. -/
def ApiResp.isOk : ApiResp → Bool
  | .err _ _ => false
  | .ok _ _ _ _ => true

/-- Whether an HTML response is a successful consumption. -/
def HtmlResp.isOk : HtmlResp → Bool
  | .err _ _ => false
  | .page _ _ => true

/-- A sequence of sequential accesses to the same id at the given clock
values: the list of responses and the final store. -/
def accessSeq (s : Store) (id : String) : List Int → List ApiResp × Store
  | [] => ([], s)
  | t :: ts =>
    let p := apiAccess s id t
    let q := accessSeq p.2 id ts
    (p.1 :: q.1, q.2)

/-- An id is dead in a store when its key is absent or its record has
reached its view limit: every further access returns `NotFound`. -/
def deadId (s : Store) (id : String) : Bool :=
  match kvGet s (pasteKey id) with
  | none => true
  | some r => viewLimitReached r

/-- The view-counter invariant of a store: no stored record exceeds its
view limit. -/
def storeViewsInv (s : Store) : Prop :=
  ∀ k r m, kvGet s k = some r → r.max_views = some m → r.views ≤ m

/-- The stores reachable from the empty store by the creation endpoint and
sequential accesses through either route. -/
inductive Reachable : Store → Prop where
  | init : Reachable []
  | create (s : Store) (id : String) (content : Option String)
      (ttl_seconds max_views : Option ℚ) (clockNow : Int) :
      Reachable s → Reachable (createOp s id content ttl_seconds max_views clockNow).2
  | api (s : Store) (id : String) (t : Int) :
      Reachable s → Reachable (apiAccess s id t).2
  | html (s : Store) (id : String) (t : Int) :
      Reachable s → Reachable (htmlAccess s id t).2

/-! ## Store lemmas -/

theorem kvGet_kvSet (s : Store) (k k' : String) (v : PasteRecord) :
    kvGet (kvSet s k v) k' = if k = k' then some v else kvGet s k' := by
  induction s with
  | nil => simp [kvSet, kvGet]
  | cons p rest ih =>
    obtain ⟨k₀, v₀⟩ := p
    by_cases h₀ : k₀ = k
    · subst h₀
      by_cases h₁ : k₀ = k'
      · subst h₁; simp [kvSet, kvGet]
      · simp [kvSet, kvGet, h₁]
    · by_cases h₁ : k₀ = k'
      · subst h₁
        have hkk : ¬ k = k₀ := fun h => h₀ h.symm
        simp [kvSet, kvGet, h₀, hkk]
      · simp [kvSet, kvGet, h₀, h₁, ih]

theorem kvGet_kvDel (s : Store) (k k' : String) :
    kvGet (kvDel s k) k' = if k = k' then none else kvGet s k' := by
  induction s with
  | nil => simp [kvDel, kvGet]
  | cons p rest ih =>
    obtain ⟨k₀, v₀⟩ := p
    by_cases h₀ : k₀ = k
    · subst h₀
      by_cases h₁ : k₀ = k'
      · subst h₁; simp [kvDel, kvGet, ih]
      · simp [kvDel, kvGet, h₁, ih]
    · by_cases h₁ : k₀ = k'
      · subst h₁
        have hkk : ¬ k₀ = k := h₀
        have hkk' : ¬ k = k₀ := fun h => h₀ h.symm
        simp [kvDel, kvGet, hkk, hkk']
      · simp [kvDel, kvGet, h₀, h₁, ih]

/-! ## Case lemmas for the access routes -/

theorem apiAccess_missing (s : Store) (id : String) (t : Int)
    (h : kvGet s (pasteKey id) = none) :
    apiAccess s id t = (.err 404 "Not found", s) := by
  simp [apiAccess, h]

theorem apiAccess_expired (s : Store) (id : String) (t : Int) (r : PasteRecord)
    (h : kvGet s (pasteKey id) = some r) (he : expiredAt r t = true) :
    apiAccess s id t = (.err 404 "Expired", kvDel s (pasteKey id)) := by
  simp [apiAccess, h, he]

theorem apiAccess_exhausted (s : Store) (id : String) (t : Int) (r : PasteRecord)
    (h : kvGet s (pasteKey id) = some r) (he : expiredAt r t = false)
    (hv : viewLimitReached r = true) :
    apiAccess s id t = (.err 404 "View limit exceeded", s) := by
  simp [apiAccess, h, he, hv]

theorem apiAccess_consume (s : Store) (id : String) (t : Int) (r : PasteRecord)
    (h : kvGet s (pasteKey id) = some r) (he : expiredAt r t = false)
    (hv : viewLimitReached r = false) :
    apiAccess s id t =
      (.ok 200 r.content
        (r.max_views.map fun m => max 0 (m - (r.views + 1)))
        (r.ttl_seconds.map fun T => r.createdAt + T * 1000),
       kvSet s (pasteKey id) { r with views := r.views + 1 }) := by
  simp [apiAccess, h, he, hv]

/-- The two access routes perform the same store transition. -/
theorem htmlAccess_snd_eq (s : Store) (id : String) (t : Int) :
    (htmlAccess s id t).2 = (apiAccess s id t).2 := by
  unfold htmlAccess apiAccess
  cases kvGet s (pasteKey id) with
  | none => rfl
  | some r =>
    by_cases he : expiredAt r t
    · simp [he]
    · by_cases hv : viewLimitReached r
      · simp [he, hv]
      · simp [he, hv]

/-- The two access routes fail with the same status and message. -/
theorem htmlAccess_err_iff (s : Store) (id : String) (t : Int) (st : Nat)
    (m : String) :
    (htmlAccess s id t).1 = .err st m ↔ (apiAccess s id t).1 = .err st m := by
  unfold htmlAccess apiAccess
  cases kvGet s (pasteKey id) with
  | none => simp
  | some r =>
    by_cases he : expiredAt r t
    · simp [he]
    · by_cases hv : viewLimitReached r
      · simp [he, hv]
      · simp [he, hv]

/-- The two access routes succeed in exactly the same cases. -/
theorem htmlAccess_isOk_eq (s : Store) (id : String) (t : Int) :
    (htmlAccess s id t).1.isOk = (apiAccess s id t).1.isOk := by
  unfold htmlAccess apiAccess
  cases kvGet s (pasteKey id) with
  | none => rfl
  | some r =>
    by_cases he : expiredAt r t
    · simp [he, ApiResp.isOk, HtmlResp.isOk]
    · by_cases hv : viewLimitReached r
      · simp [he, hv, ApiResp.isOk, HtmlResp.isOk]
      · simp [he, hv, ApiResp.isOk, HtmlResp.isOk]

/-! ## Claim theorems -/

/-- C1: for every stored record that passes the TTL and view-limit checks,
`Access` increments `views` by exactly 1, persists the updated record, and
returns the stored content unchanged, with `remaining_views` equal to `null`
when `max_views` is unset and otherwise `max(0, max_views - views)` computed
from the post-increment `views`, and `expires_at` equal to `null` when
`ttl_seconds` is unset and otherwise `createdAt + ttl_seconds * 1000`. -/
theorem access_success_consumes (s : Store) (id : String) (t : Int)
    (r : PasteRecord) (h : kvGet s (pasteKey id) = some r)
    (hTTL : expiredAt r t = false) (hViews : viewLimitReached r = false) :
    (apiAccess s id t).2 = kvSet s (pasteKey id) { r with views := r.views + 1 } ∧
    kvGet (apiAccess s id t).2 (pasteKey id) = some { r with views := r.views + 1 } ∧
    (apiAccess s id t).1 = .ok 200 r.content
      (r.max_views.map fun m => max 0 (m - (r.views + 1)))
      (r.ttl_seconds.map fun T => r.createdAt + T * 1000) := by
  have hc := apiAccess_consume s id t r h hTTL hViews
  refine ⟨by rw [hc], ?_, by rw [hc]⟩
  rw [hc]
  simp [kvGet_kvSet]

theorem access_success_consumes_witness :
    (apiAccess [(pasteKey "a",
        { content := "hi", createdAt := 0, ttl_seconds := some 60,
          max_views := some 3, views := 1 })] "a" 5).1 =
      .ok 200 "hi" (some 1) (some 60000) ∧
    (apiAccess [(pasteKey "a",
        { content := "hi", createdAt := 0, ttl_seconds := some 60,
          max_views := some 3, views := 1 })] "a" 5).2 =
      [(pasteKey "a",
        { content := "hi", createdAt := 0, ttl_seconds := some 60,
          max_views := some 3, views := 2 })] := by
  have h := access_success_consumes
    [(pasteKey "a",
      { content := "hi", createdAt := 0, ttl_seconds := some 60,
        max_views := some 3, views := 1 })] "a" 5
    { content := "hi", createdAt := 0, ttl_seconds := some 60,
      max_views := some 3, views := 1 } rfl rfl rfl
  exact ⟨h.2.2.trans (by decide), h.1.trans (by decide)⟩

/-- C2: a record with `ttl_seconds = T` accessed at any `now ≥ createdAt +
T*1000` is deleted from the store and the call returns `NotFound`; at
`now = createdAt + T*1000 - 1` the expiry branch is not taken and the call
succeeds provided the view limit is not exhausted; after the expiring access
the key is absent from the store. -/
theorem access_ttl_expiry (s : Store) (id : String) (r : PasteRecord) (T : Int)
    (h : kvGet s (pasteKey id) = some r) (hT : r.ttl_seconds = some T) :
    (∀ t, r.createdAt + T * 1000 ≤ t →
      apiAccess s id t = (.err 404 "Expired", kvDel s (pasteKey id)) ∧
      kvGet (apiAccess s id t).2 (pasteKey id) = none) ∧
    (viewLimitReached r = false →
      (apiAccess s id (r.createdAt + T * 1000 - 1)).1.isOk = true) := by
  constructor
  · intro t ht
    have he : expiredAt r t = true := by
      simp [expiredAt, hT]; exact ht
    have hx := apiAccess_expired s id t r h he
    refine ⟨hx, ?_⟩
    rw [hx]
    simp [kvGet_kvDel]
  · intro hv
    have he : expiredAt r (r.createdAt + T * 1000 - 1) = false := by
      simp [expiredAt, hT]
    rw [apiAccess_consume s id _ r h he hv]
    rfl

theorem access_ttl_expiry_witness :
    (apiAccess [(pasteKey "b",
        { content := "x", createdAt := 1000, ttl_seconds := some 60,
          max_views := none, views := 0 })] "b" 61000).1 = .err 404 "Expired" ∧
    kvGet (apiAccess [(pasteKey "b",
        { content := "x", createdAt := 1000, ttl_seconds := some 60,
          max_views := none, views := 0 })] "b" 61000).2 (pasteKey "b") = none ∧
    (apiAccess [(pasteKey "b",
        { content := "x", createdAt := 1000, ttl_seconds := some 60,
          max_views := none, views := 0 })] "b" 60999).1.isOk = true := by
  have h := access_ttl_expiry
    [(pasteKey "b",
      { content := "x", createdAt := 1000, ttl_seconds := some 60,
        max_views := none, views := 0 })] "b"
    { content := "x", createdAt := 1000, ttl_seconds := some 60,
      max_views := none, views := 0 } 60 rfl rfl
  have h1 := h.1 61000 (by decide)
  exact ⟨by rw [h1.1], h1.2, h.2 rfl⟩

/-- C4: for every stored record with `max_views` set and `views ≥ max_views`
that is not past its TTL, `Access` returns `NotFound` without mutating the
record: the store is neither modified nor deleted on this path, so the
exhausted record remains stored. -/
theorem access_exhausted_no_mutation (s : Store) (id : String) (t : Int)
    (r : PasteRecord) (m : Int) (h : kvGet s (pasteKey id) = some r)
    (he : expiredAt r t = false) (hm : r.max_views = some m)
    (hv : m ≤ r.views) :
    (apiAccess s id t).1 = .err 404 "View limit exceeded" ∧
    (apiAccess s id t).2 = s ∧
    kvGet (apiAccess s id t).2 (pasteKey id) = some r := by
  have hvl : viewLimitReached r = true := by
    simp [viewLimitReached, hm]; exact hv
  have hx := apiAccess_exhausted s id t r h he hvl
  exact ⟨by rw [hx], by rw [hx], by rw [hx]; exact h⟩

theorem access_exhausted_no_mutation_witness :
    (apiAccess [(pasteKey "c",
        { content := "x", createdAt := 0, ttl_seconds := none,
          max_views := some 2, views := 2 })] "c" 7).1 =
      .err 404 "View limit exceeded" ∧
    (apiAccess [(pasteKey "c",
        { content := "x", createdAt := 0, ttl_seconds := none,
          max_views := some 2, views := 2 })] "c" 7).2 =
      [(pasteKey "c",
        { content := "x", createdAt := 0, ttl_seconds := none,
          max_views := some 2, views := 2 })] := by
  have h := access_exhausted_no_mutation
    [(pasteKey "c",
      { content := "x", createdAt := 0, ttl_seconds := none,
        max_views := some 2, views := 2 })] "c" 7
    { content := "x", createdAt := 0, ttl_seconds := none,
      max_views := some 2, views := 2 } 2 rfl rfl rfl (by decide)
  exact ⟨h.1, h.2.1⟩

/-- C9: for every store state, paste id and clock value, the API access route
(`GET /api/pastes/:id`) and the HTML access route (`GET /p/:id`) perform the
same store-state transition, succeed in exactly the same cases, and fail with
the same status and message in exactly the same cases. -/
theorem api_html_routes_equivalent (s : Store) (id : String) (t : Int) :
    (htmlAccess s id t).2 = (apiAccess s id t).2 ∧
    (htmlAccess s id t).1.isOk = (apiAccess s id t).1.isOk ∧
    ∀ st m, (htmlAccess s id t).1 = .err st m ↔ (apiAccess s id t).1 = .err st m :=
  ⟨htmlAccess_snd_eq s id t, htmlAccess_isOk_eq s id t,
    fun st m => htmlAccess_err_iff s id t st m⟩

/-- The `v < 1` rejection on an integer JS number is exactly "zero or
negative": `posIntInvalid` holds precisely for non-integers and
non-positive values. -/
theorem posIntInvalid_iff (q : ℚ) :
    posIntInvalid (some q) = true ↔ (q ≤ 0 ∨ jsIsInteger q = false) := by
  simp only [posIntInvalid, Bool.or_eq_true, Bool.not_eq_true', decide_eq_true_eq]
  constructor
  · rintro (hint | hlt)
    · exact Or.inr hint
    · by_cases hi : jsIsInteger q = true
      · left
        have hden : q.den = 1 := by simpa [jsIsInteger] using hi
        have hq : (q.num : ℚ) = q := Rat.coe_int_num_of_den_eq_one hden
        have h1 : (q.num : ℚ) < 1 := by rw [hq]; exact hlt
        have h2 : q.num < 1 := by exact_mod_cast h1
        have h3 : q.num ≤ 0 := by omega
        calc q = (q.num : ℚ) := hq.symm
          _ ≤ 0 := by exact_mod_cast h3
      · exact Or.inr (by simpa using hi)
  · rintro (hle | hni)
    · exact Or.inr (lt_of_le_of_lt hle one_pos)
    · exact Or.inl hni

/-- C6: `Create` validates in order and each failure leaves the store
untouched: content that is not a non-empty string after trimming fails with
`InvalidContent`; a supplied `ttl_seconds` that is zero, negative or not an
integer fails with `InvalidTTL`; a supplied `max_views` failing the same test
fails with `InvalidMaxViews`; no store write occurs on failure, and on
success the record is persisted with `views = 0` and `createdAt` the supplied
clock value. -/
theorem createPaste_validation (s : Store) (id : String)
    (content : Option String) (ttl_seconds max_views : Option ℚ)
    (clockNow : Int) :
    (contentInvalid content = true ↔ ∀ c, content = some c → jsTrim c = "") ∧
    (contentInvalid content = true →
      createOp s id content ttl_seconds max_views clockNow =
        (.error .invalidContent, s)) ∧
    (∀ q, ttl_seconds = some q → (q ≤ 0 ∨ jsIsInteger q = false) →
      posIntInvalid ttl_seconds = true) ∧
    (contentInvalid content = false → posIntInvalid ttl_seconds = true →
      createOp s id content ttl_seconds max_views clockNow =
        (.error .invalidTTL, s)) ∧
    (∀ q, max_views = some q → (q ≤ 0 ∨ jsIsInteger q = false) →
      posIntInvalid max_views = true) ∧
    (contentInvalid content = false → posIntInvalid ttl_seconds = false →
      posIntInvalid max_views = true →
      createOp s id content ttl_seconds max_views clockNow =
        (.error .invalidMaxViews, s)) ∧
    (contentInvalid content = false → posIntInvalid ttl_seconds = false →
      posIntInvalid max_views = false →
      ∃ r, createPaste content ttl_seconds max_views clockNow = .ok r ∧
        createOp s id content ttl_seconds max_views clockNow =
          (.ok id, kvSet s (pasteKey id) r) ∧
        r.views = 0 ∧ r.createdAt = clockNow) := by
  refine ⟨?_, ?_, ?_, ?_, ?_, ?_, ?_⟩
  · cases content with
    | none => simp [contentInvalid]
    | some c =>
      simp only [contentInvalid, Bool.or_eq_true, decide_eq_true_eq]
      constructor
      · intro h c' hc'
        obtain rfl : c' = c := by injection hc' with h'; exact h'.symm
        rcases h with rfl | h2
        · rfl
        · exact h2
      · intro h
        exact Or.inr (h c rfl)
  · intro h1
    simp [createOp, createPaste, h1]
  · intro q hq hcond
    rw [hq]
    exact (posIntInvalid_iff q).mpr hcond
  · intro h1 h2
    simp [createOp, createPaste, h1, h2]
  · intro q hq hcond
    rw [hq]
    exact (posIntInvalid_iff q).mpr hcond
  · intro h1 h2 h3
    simp [createOp, createPaste, h1, h2, h3]
  · intro h1 h2 h3
    exact ⟨{ content := content.getD "", createdAt := clockNow,
             ttl_seconds := ttl_seconds.map ratToInt,
             max_views := max_views.map ratToInt, views := 0 },
           by simp [createPaste, h1, h2, h3],
           by simp [createOp, createPaste, h1, h2, h3], rfl, rfl⟩

theorem createPaste_validation_witness :
    createOp [] "w" (some "   ") (some 5) none 3 = (.error .invalidContent, []) ∧
    createOp [] "w" (some "ok") (some 0) none 3 = (.error .invalidTTL, []) ∧
    createOp [] "w" (some "ok") (some 5)
      (some (Rat.mk' 1 2 (by decide) (by decide))) 3 =
      (.error .invalidMaxViews, []) ∧
    (createOp [] "w" (some "ok") (some 5) (some 2) 3).1 = .ok "w" := by
  have h1 := (createPaste_validation [] "w" (some "   ") (some 5) none 3).2.1
  have h2 := (createPaste_validation [] "w" (some "ok") (some 0) none 3).2.2.2.1
  have h3 := (createPaste_validation [] "w" (some "ok") (some 5)
    (some (Rat.mk' 1 2 (by decide) (by decide))) 3).2.2.2.2.2.1
  have h4 := (createPaste_validation [] "w" (some "ok") (some 5) (some 2) 3).2.2.2.2.2.2
  refine ⟨h1 (by decide), h2 (by decide) (by decide),
    h3 (by decide) (by decide) (by decide), ?_⟩
  obtain ⟨r, _, hop, _, _⟩ := h4 (by decide) (by decide) (by decide)
  rw [hop]

/-- Every error response of the API access route has status 404. -/
theorem apiAccess_err_status (s : Store) (id : String) (t : Int) (st : Nat)
    (m : String) (h : (apiAccess s id t).1 = .err st m) : st = 404 := by
  rcases hk : kvGet s (pasteKey id) with _ | r
  · rw [apiAccess_missing s id t hk] at h
    simp at h
    omega
  · by_cases he : expiredAt r t
    · rw [apiAccess_expired s id t r hk he] at h
      simp at h
      omega
    · by_cases hv : viewLimitReached r
      · rw [apiAccess_exhausted s id t r hk (by simpa using he) hv] at h
        simp at h
        omega
      · rw [apiAccess_consume s id t r hk (by simpa using he)
          (by simpa using hv)] at h
        simp at h

/-- C7 counterexample: the claim that the three NotFound causes produce one
and the same externally observable outcome fails: a missing id, an expired
record and an exhausted record yield pairwise distinct response bodies. -/
theorem notFound_reasons_distinguishable :
    (apiAccess [] "a" 0).1 = .err 404 "Not found" ∧
    (apiAccess [(pasteKey "a",
        { content := "x", createdAt := 0, ttl_seconds := some 1,
          max_views := none, views := 0 })] "a" 1000).1 = .err 404 "Expired" ∧
    (apiAccess [(pasteKey "a",
        { content := "x", createdAt := 0, ttl_seconds := none,
          max_views := some 1, views := 1 })] "a" 1000).1 =
      .err 404 "View limit exceeded" ∧
    (ApiResp.err 404 "Not found" ≠ ApiResp.err 404 "Expired") ∧
    (ApiResp.err 404 "Expired" ≠ ApiResp.err 404 "View limit exceeded") ∧
    (ApiResp.err 404 "Not found" ≠ ApiResp.err 404 "View limit exceeded") := by
  decide

/-- C7 amended: the three NotFound causes (missing id, expired record,
exhausted record) all collapse to the same HTTP status, 404, on both access
routes, but the response bodies name the reason, so a caller can distinguish
which applied. -/
theorem notFound_status_collapsed (s : Store) (id : String) (t : Int)
    (st : Nat) (m : String) :
    ((apiAccess s id t).1 = .err st m → st = 404) ∧
    ((htmlAccess s id t).1 = .err st m → st = 404) :=
  ⟨fun h => apiAccess_err_status s id t st m h,
   fun h => apiAccess_err_status s id t st m ((htmlAccess_err_iff s id t st m).mp h)⟩

theorem notFound_status_collapsed_witness :
    (apiAccess [] "a" 0).1 = .err 404 "Not found" ∧ (404 : Nat) = 404 :=
  ⟨rfl, (notFound_status_collapsed [] "a" 0 404 "Not found").1 rfl⟩

/-- A successful access returns the content of the stored record. -/
theorem apiAccess_ok_content (s : Store) (id : String) (t : Int) (st : Nat)
    (cc : String) (rv : Option Int) (ea : Option Int)
    (h : (apiAccess s id t).1 = .ok st cc rv ea) :
    ∃ r, kvGet s (pasteKey id) = some r ∧ cc = r.content := by
  rcases hk : kvGet s (pasteKey id) with _ | r
  · rw [apiAccess_missing s id t hk] at h
    simp at h
  · by_cases he : expiredAt r t
    · rw [apiAccess_expired s id t r hk he] at h
      simp at h
    · by_cases hv : viewLimitReached r
      · rw [apiAccess_exhausted s id t r hk (by simpa using he) hv] at h
        simp at h
      · rw [apiAccess_consume s id t r hk (by simpa using he)
          (by simpa using hv)] at h
        simp at h
        exact ⟨r, rfl, h.2.1.symm⟩

/-- Accessing never changes the content of the record stored under the
accessed key. -/
theorem apiAccess_preserves_content (s : Store) (id : String) (t : Int)
    (c : String) (hs : ∀ r, kvGet s (pasteKey id) = some r → r.content = c) :
    ∀ r', kvGet (apiAccess s id t).2 (pasteKey id) = some r' → r'.content = c := by
  intro r' h'
  rcases hk : kvGet s (pasteKey id) with _ | r
  · rw [apiAccess_missing s id t hk] at h'
    exact hs r' h'
  · by_cases he : expiredAt r t
    · rw [apiAccess_expired s id t r hk he] at h'
      simp [kvGet_kvDel] at h'
    · by_cases hv : viewLimitReached r
      · rw [apiAccess_exhausted s id t r hk (by simpa using he) hv] at h'
        exact hs r' h'
      · rw [apiAccess_consume s id t r hk (by simpa using he)
          (by simpa using hv)] at h'
        simp [kvGet_kvSet] at h'
        rw [← h']
        exact hs r hk

/-- Every successful response in a sequence of accesses carries the content
stored under the key. -/
theorem accessSeq_ok_content (id : String) (c : String) :
    ∀ (ts : List Int) (s : Store),
    (∀ r, kvGet s (pasteKey id) = some r → r.content = c) →
    ∀ resp ∈ (accessSeq s id ts).1,
    ∀ st cc rv ea, resp = .ok st cc rv ea → cc = c := by
  intro ts
  induction ts with
  | nil =>
    intro s _ resp hresp
    simp [accessSeq] at hresp
  | cons t ts ih =>
    intro s hs resp hresp st cc rv ea hr
    simp only [accessSeq] at hresp
    rcases List.mem_cons.mp hresp with rfl | hresp'
    · obtain ⟨r, hk, hc⟩ := apiAccess_ok_content s id t st cc rv ea hr
      rw [hc]
      exact hs r hk
    · exact ih (apiAccess s id t).2 (apiAccess_preserves_content s id t c hs)
        resp hresp' st cc rv ea hr

/-- C10: `Create` stores the content string verbatim, without trimming: for
every content whose trimmed form is non-empty but which carries leading or
trailing whitespace, the created record holds the content including that
whitespace, and every subsequent successful `Access` returns it unchanged. -/
theorem create_content_verbatim (c : String) (ttl_seconds max_views : Option ℚ)
    (clockNow : Int) (hc : jsTrim c ≠ "") (_hw : jsTrim c ≠ c)
    (ht : posIntInvalid ttl_seconds = false)
    (hm : posIntInvalid max_views = false) :
    ∃ r, createPaste (some c) ttl_seconds max_views clockNow = .ok r ∧
      r.content = c ∧
      ∀ (s : Store) (id : String) (ts : List Int),
        ∀ resp ∈ (accessSeq (kvSet s (pasteKey id) r) id ts).1,
        ∀ st cc rv ea, resp = .ok st cc rv ea → cc = c := by
  have hne : c ≠ "" := by
    intro h
    exact hc (by rw [h]; rfl)
  have hci : contentInvalid (some c) = false := by
    simp [contentInvalid, hne, hc]
  refine ⟨{ content := c, createdAt := clockNow,
            ttl_seconds := ttl_seconds.map ratToInt,
            max_views := max_views.map ratToInt, views := 0 },
          by simp [createPaste, hci, ht, hm], rfl, ?_⟩
  intro s id ts resp hresp st cc rv ea hr
  refine accessSeq_ok_content id c ts (kvSet s (pasteKey id)
    { content := c, createdAt := clockNow,
      ttl_seconds := ttl_seconds.map ratToInt,
      max_views := max_views.map ratToInt, views := 0 }) ?_ resp hresp st cc rv ea hr
  intro r' h'
  simp [kvGet_kvSet] at h'
  rw [← h']

theorem create_content_verbatim_witness :
    createPaste (some "  hi ") none none 0 =
      .ok { content := "  hi ", createdAt := 0, ttl_seconds := none,
            max_views := none, views := 0 } ∧
    (apiAccess (kvSet [] (pasteKey "d")
        { content := "  hi ", createdAt := 0, ttl_seconds := none,
          max_views := none, views := 0 }) "d" 1).1 =
      .ok 200 "  hi " none none := by
  obtain ⟨r, h1, h2, h3⟩ :=
    create_content_verbatim "  hi " none none 0 (by decide) (by decide) rfl rfl
  have h0 : createPaste (some "  hi ") none none 0 =
      .ok { content := "  hi ", createdAt := 0, ttl_seconds := none,
            max_views := none, views := 0 } := rfl
  exact ⟨h0, by decide⟩

/-- After an access that returned `NotFound`, the accessed id is dead. -/
theorem deadId_after_notFound (s : Store) (id : String) (t : Int) (st : Nat)
    (m : String) (h : (apiAccess s id t).1 = .err st m) :
    deadId (apiAccess s id t).2 id = true := by
  rcases hk : kvGet s (pasteKey id) with _ | r
  · rw [apiAccess_missing s id t hk]
    simp [deadId, hk]
  · by_cases he : expiredAt r t
    · rw [apiAccess_expired s id t r hk he]
      simp [deadId, kvGet_kvDel]
    · by_cases hv : viewLimitReached r
      · rw [apiAccess_exhausted s id t r hk (by simpa using he) hv]
        simp [deadId, hk, hv]
      · rw [apiAccess_consume s id t r hk (by simpa using he)
          (by simpa using hv)] at h
        simp at h

/-- An access to a dead id returns `NotFound` and leaves the id dead. -/
theorem deadId_access (s : Store) (id : String) (t : Int)
    (h : deadId s id = true) :
    (apiAccess s id t).1.isNotFound = true ∧
    deadId (apiAccess s id t).2 id = true := by
  rcases hk : kvGet s (pasteKey id) with _ | r
  · rw [apiAccess_missing s id t hk]
    exact ⟨rfl, by simp [deadId, hk]⟩
  · have hvl : viewLimitReached r = true := by
      unfold deadId at h
      rw [hk] at h
      simpa using h
    by_cases he : expiredAt r t
    · rw [apiAccess_expired s id t r hk he]
      exact ⟨rfl, by simp [deadId, kvGet_kvDel]⟩
    · rw [apiAccess_exhausted s id t r hk (by simpa using he) hvl]
      exact ⟨rfl, by simp [deadId, hk, hvl]⟩

/-- Every access in a sequence against a dead id returns `NotFound`. -/
theorem deadId_accessSeq (id : String) : ∀ (ts : List Int) (s : Store),
    deadId s id = true →
    ∀ resp ∈ (accessSeq s id ts).1, resp.isNotFound = true := by
  intro ts
  induction ts with
  | nil =>
    intro s _ resp hr
    simp [accessSeq] at hr
  | cons t ts ih =>
    intro s hdead resp hr
    have hstep := deadId_access s id t hdead
    simp only [accessSeq] at hr
    rcases List.mem_cons.mp hr with rfl | hr'
    · exact hstep.1
    · exact ih (apiAccess s id t).2 hstep.2 resp hr'

/-- C8 counterexample: an `Access` that returns `NotFound` because the TTL
has expired deletes the record, mutating the store, so a NotFound-returning
access is not always mutation-free. -/
theorem access_notFound_mutates_on_expiry :
    (apiAccess [(pasteKey "e",
        { content := "x", createdAt := 0, ttl_seconds := some 1,
          max_views := none, views := 0 })] "e" 1000).1.isNotFound = true ∧
    (apiAccess [(pasteKey "e",
        { content := "x", createdAt := 0, ttl_seconds := some 1,
          max_views := none, views := 0 })] "e" 1000).2 ≠
      [(pasteKey "e",
        { content := "x", createdAt := 0, ttl_seconds := some 1,
          max_views := none, views := 0 })] := by
  decide

/-- C8 amended: when `Access` returns `NotFound`, the store is unchanged
unless the cause was TTL expiry, in which case the record is deleted; in
every case, all subsequent accesses to that id, at any clock values, return
`NotFound`. -/
theorem access_notFound_idempotent (s : Store) (id : String) (t : Int)
    (st : Nat) (m : String) (h : (apiAccess s id t).1 = .err st m) :
    (m ≠ "Expired" → (apiAccess s id t).2 = s) ∧
    (m = "Expired" → kvGet (apiAccess s id t).2 (pasteKey id) = none) ∧
    ∀ ts, ∀ resp ∈ (accessSeq (apiAccess s id t).2 id ts).1,
      resp.isNotFound = true := by
  refine ⟨?_, ?_, ?_⟩
  · intro hm
    rcases hk : kvGet s (pasteKey id) with _ | r
    · rw [apiAccess_missing s id t hk]
    · by_cases he : expiredAt r t
      · rw [apiAccess_expired s id t r hk he] at h
        simp at h
        exact absurd h.2.symm hm
      · by_cases hv : viewLimitReached r
        · rw [apiAccess_exhausted s id t r hk (by simpa using he) hv]
        · rw [apiAccess_consume s id t r hk (by simpa using he)
            (by simpa using hv)] at h
          simp at h
  · intro hm
    rcases hk : kvGet s (pasteKey id) with _ | r
    · rw [apiAccess_missing s id t hk] at h ⊢
      simp at h
      rw [← h.2] at hm
      exact absurd hm (by decide)
    · by_cases he : expiredAt r t
      · rw [apiAccess_expired s id t r hk he]
        simp [kvGet_kvDel]
      · by_cases hv : viewLimitReached r
        · rw [apiAccess_exhausted s id t r hk (by simpa using he) hv] at h
          simp at h
          rw [← h.2] at hm
          exact absurd hm (by decide)
        · rw [apiAccess_consume s id t r hk (by simpa using he)
            (by simpa using hv)] at h
          simp at h
  · intro ts resp hr
    exact deadId_accessSeq id ts (apiAccess s id t).2
      (deadId_after_notFound s id t st m h) resp hr

theorem access_notFound_idempotent_witness :
    (apiAccess [] "z" 0).1 = .err 404 "Not found" ∧
    (apiAccess [] "z" 0).2 = [] := by
  have h := access_notFound_idempotent [] "z" 0 404 "Not found" rfl
  exact ⟨rfl, h.1 (by decide)⟩

/-- The response list of a run of accesses against a record with
`max_views = N`, none of whose clock values trip the TTL check: call `k`
(0-based) succeeds with `N - (views + k + 1)` remaining views while
`views + k < N`, and returns the view-limit `NotFound` afterwards. -/
theorem accessSeq_maxViews_list (id : String) (N : Int) :
    ∀ (ts : List Int) (s : Store) (r : PasteRecord),
    kvGet s (pasteKey id) = some r → r.max_views = some N →
    (∀ t ∈ ts, expiredAt r t = false) →
    (accessSeq s id ts).1 = (List.range ts.length).map (fun (k : Nat) =>
      if r.views + (k : Int) < N then
        ApiResp.ok 200 r.content (some (N - (r.views + (k : Int) + 1)))
          (r.ttl_seconds.map fun T => r.createdAt + T * 1000)
      else ApiResp.err 404 "View limit exceeded") := by
  intro ts
  induction ts with
  | nil =>
    intro s r _ _ _
    simp [accessSeq]
  | cons t ts ih =>
    intro s r hk hm hne
    have hnoexp : expiredAt r t = false := hne t (List.mem_cons_self t ts)
    have hne' : ∀ t' ∈ ts, expiredAt r t' = false :=
      fun t' ht' => hne t' (List.mem_cons_of_mem t ht')
    by_cases hv : viewLimitReached r
    · have hNle : N ≤ r.views := by
        simpa [viewLimitReached, hm] using hv
      have hstep := apiAccess_exhausted s id t r hk hnoexp hv
      simp only [accessSeq, hstep]
      rw [ih s r hk hm hne']
      rw [List.length_cons, List.range_succ_eq_map, List.map_cons, List.map_map]
      congr 1
      · rw [if_neg (by push_cast; omega)]
      · refine List.map_congr_left ?_
        intro j hj
        simp only [Function.comp]
        rw [if_neg (by omega), if_neg (by omega)]
    · have hlt : r.views < N := by
        have hnv : ¬ N ≤ r.views := by
          simpa [viewLimitReached, hm] using hv
        omega
      have hstep := apiAccess_consume s id t r hk hnoexp (by simpa using hv)
      simp only [accessSeq, hstep]
      have hk' : kvGet (kvSet s (pasteKey id) { r with views := r.views + 1 })
          (pasteKey id) = some { r with views := r.views + 1 } := by
        simp [kvGet_kvSet]
      have hm' : ({ r with views := r.views + 1 } : PasteRecord).max_views =
          some N := hm
      have hne'' : ∀ t' ∈ ts,
          expiredAt { r with views := r.views + 1 } t' = false := hne'
      rw [ih (kvSet s (pasteKey id) { r with views := r.views + 1 })
        { r with views := r.views + 1 } hk' hm' hne'']
      rw [List.length_cons, List.range_succ_eq_map, List.map_cons, List.map_map]
      congr 1
      · simp only [hm, Option.map_some']
        rw [if_pos (show r.views + ((0 : Nat) : Int) < N by push_cast; omega)]
        have hmax : max 0 (N - (r.views + 1)) = N - (r.views + ((0 : Nat) : Int) + 1) := by
          push_cast
          omega
        rw [hmax]
      · refine List.map_congr_left ?_
        intro j hj
        simp only [Function.comp]
        have e1 : r.views + 1 + (j : Int) = r.views + (((j + 1 : Nat)) : Int) := by
          push_cast
          ring
        rw [e1]

/-- C3: for every record created with `max_views = N` and no TTL expiry
intervening, in a sequential execution exactly the first `N` accesses succeed
and every later one returns `NotFound`; the `remaining_views` of call `k`
(0-based) is `N - (k + 1)`, so it strictly decreases by 1 per successful call
and reaches 0 exactly at the `N`-th call. -/
theorem maxViews_exhaustion_sequence (s : Store) (id : String)
    (r : PasteRecord) (N : Int) (ts : List Int)
    (h : kvGet s (pasteKey id) = some r) (hv : r.views = 0)
    (hN : r.max_views = some N) (hne : ∀ t ∈ ts, expiredAt r t = false) :
    (accessSeq s id ts).1 = (List.range ts.length).map (fun (k : Nat) =>
      if (k : Int) < N then
        ApiResp.ok 200 r.content (some (N - ((k : Int) + 1)))
          (r.ttl_seconds.map fun T => r.createdAt + T * 1000)
      else ApiResp.err 404 "View limit exceeded") := by
  rw [accessSeq_maxViews_list id N ts s r h hN hne]
  refine List.map_congr_left ?_
  intro j hj
  rw [hv]
  simp

theorem maxViews_exhaustion_sequence_witness :
    (accessSeq [(pasteKey "f",
        { content := "x", createdAt := 0, ttl_seconds := none,
          max_views := some 2, views := 0 })] "f" [1, 2, 3]).1 =
      [ApiResp.ok 200 "x" (some 1) none, ApiResp.ok 200 "x" (some 0) none,
       ApiResp.err 404 "View limit exceeded"] := by
  have h := maxViews_exhaustion_sequence
    [(pasteKey "f",
      { content := "x", createdAt := 0, ttl_seconds := none,
        max_views := some 2, views := 0 })] "f"
    { content := "x", createdAt := 0, ttl_seconds := none,
      max_views := some 2, views := 0 } 2 [1, 2, 3] rfl rfl rfl (by decide)
  rw [h]
  decide

/-- A record built by a successful `createPaste` starts at `views = 0` with,
when set, a view limit of at least 1. -/
theorem createPaste_ok_fields (content : Option String)
    (ttl_seconds max_views : Option ℚ) (clockNow : Int) (r : PasteRecord)
    (h : createPaste content ttl_seconds max_views clockNow = .ok r) :
    r.views = 0 ∧ ∀ m, r.max_views = some m → 1 ≤ m := by
  by_cases h1 : contentInvalid content
  · simp [createPaste, h1] at h
  · by_cases h2 : posIntInvalid ttl_seconds
    · simp [createPaste, h1, h2] at h
    · by_cases h3 : posIntInvalid max_views
      · simp [createPaste, h1, h2, h3] at h
      · simp only [createPaste, h1, h2, h3, Bool.false_eq_true, if_false,
          Except.ok.injEq] at h
        subst h
        refine ⟨rfl, ?_⟩
        intro m hm
        cases hmv : max_views with
        | none =>
          rw [hmv] at hm
          simp at hm
        | some q =>
          rw [hmv] at hm h3
          simp only [Option.map_some', Option.some.injEq, ratToInt] at hm
          have hpos : ¬ (q ≤ 0 ∨ jsIsInteger q = false) := fun hcon =>
            h3 ((posIntInvalid_iff q).mpr hcon)
          push_neg at hpos
          have hnum : 0 < q.num := Rat.num_pos.mpr hpos.1
          omega

/-- The creation endpoint preserves the view-counter invariant. -/
theorem createOp_preserves_inv (s : Store) (id : String)
    (content : Option String) (ttl_seconds max_views : Option ℚ)
    (clockNow : Int) (h : storeViewsInv s) :
    storeViewsInv (createOp s id content ttl_seconds max_views clockNow).2 := by
  unfold createOp
  cases hcp : createPaste content ttl_seconds max_views clockNow with
  | error e => exact h
  | ok r =>
    intro k r' m hget hm
    rw [kvGet_kvSet] at hget
    by_cases hkk : pasteKey id = k
    · rw [if_pos hkk] at hget
      obtain rfl : r = r' := by injection hget
      obtain ⟨hv0, hbound⟩ := createPaste_ok_fields content ttl_seconds
        max_views clockNow r hcp
      rw [hv0]
      exact le_trans (by omega) (hbound m hm)
    · rw [if_neg hkk] at hget
      exact h k r' m hget hm

/-- The API access route preserves the view-counter invariant. -/
theorem apiAccess_preserves_inv (s : Store) (id : String) (t : Int)
    (h : storeViewsInv s) : storeViewsInv (apiAccess s id t).2 := by
  rcases hk : kvGet s (pasteKey id) with _ | r
  · rw [apiAccess_missing s id t hk]
    exact h
  · by_cases he : expiredAt r t
    · rw [apiAccess_expired s id t r hk he]
      intro k r' m hget hm
      rw [kvGet_kvDel] at hget
      by_cases hkk : pasteKey id = k
      · rw [if_pos hkk] at hget
        cases hget
      · rw [if_neg hkk] at hget
        exact h k r' m hget hm
    · by_cases hv : viewLimitReached r
      · rw [apiAccess_exhausted s id t r hk (by simpa using he) hv]
        exact h
      · rw [apiAccess_consume s id t r hk (by simpa using he)
          (by simpa using hv)]
        intro k r' m hget hm
        rw [kvGet_kvSet] at hget
        by_cases hkk : pasteKey id = k
        · rw [if_pos hkk] at hget
          obtain rfl : { r with views := r.views + 1 } = r' := by injection hget
          have hmr : r.max_views = some m := hm
          have hnv : ¬ m ≤ r.views := by
            simpa [viewLimitReached, hmr] using hv
          show r.views + 1 ≤ m
          omega
        · rw [if_neg hkk] at hget
          exact h k r' m hget hm

/-- Every reachable store satisfies the view-counter invariant. -/
theorem reachable_storeViewsInv (s : Store) (h : Reachable s) :
    storeViewsInv s := by
  induction h with
  | init =>
    intro k r m hget _
    cases hget
  | create s id c ttl mv now _ ih =>
    exact createOp_preserves_inv s id c ttl mv now ih
  | api s id t _ ih =>
    exact apiAccess_preserves_inv s id t ih
  | html s id t _ ih =>
    rw [htmlAccess_snd_eq]
    exact apiAccess_preserves_inv s id t ih

/-- C5: in every store state reachable by sequences of `Create` and
sequential `Access` operations, `views` never exceeds `max_views` when the
latter is set; and `Create` always initializes `views = 0`. -/
theorem views_le_maxViews_reachable (s : Store) (hs : Reachable s) :
    (∀ k r m, kvGet s k = some r → r.max_views = some m → r.views ≤ m) ∧
    (∀ content ttl_seconds max_views clockNow r,
      createPaste content ttl_seconds max_views clockNow = .ok r →
      r.views = 0) :=
  ⟨reachable_storeViewsInv s hs,
   fun content ttl mv now r h =>
     (createPaste_ok_fields content ttl mv now r h).1⟩

theorem views_le_maxViews_reachable_witness :
    Reachable [(pasteKey "g",
      { content := "hi", createdAt := 5, ttl_seconds := none,
        max_views := some 2, views := 0 })] ∧
    ({ content := "hi", createdAt := 5, ttl_seconds := none,
       max_views := some 2, views := 0 } : PasteRecord).views ≤ 2 := by
  have h1 : (createOp [] "g" (some "hi") none (some 2) 5).2 =
      [(pasteKey "g",
        { content := "hi", createdAt := 5, ttl_seconds := none,
          max_views := some 2, views := 0 })] := rfl
  have h2 : Reachable [(pasteKey "g",
      { content := "hi", createdAt := 5, ttl_seconds := none,
        max_views := some 2, views := 0 })] :=
    h1 ▸ Reachable.create [] "g" (some "hi") none (some 2) 5 Reachable.init
  exact ⟨h2, (views_le_maxViews_reachable _ h2).1 (pasteKey "g") _ 2 rfl rfl⟩

theorem api_html_routes_equivalent_witness :
    (htmlAccess [] "q" 0).2 = (apiAccess [] "q" 0).2 ∧
    (htmlAccess [] "q" 0).1.isOk = (apiAccess [] "q" 0).1.isOk :=
  ⟨(api_html_routes_equivalent [] "q" 0).1,
   (api_html_routes_equivalent [] "q" 0).2.1⟩

end PastebinLite
